import Mathlib

/-!
# Publisher of packetbeat (`publish.go`)

A shallow embedding of the publication and topology layer of the agent:
`GetServerName`, the three `Publish*Transaction` operations, `UpdateTopology`
and `PublishTopology`, followed by the properties established about them.

Conventions of the embedding.

* A Go `map[string]string` is a function `String → Option String`
  (`none` = key absent); `make(map[string]string)` is the constant `none`.
* A `bson.M` document is an association list of fields; a failed type
  assertion (`x.(string)`, `x.(bson.M)`) panics, which the embedding renders
  as the result `none` of the enclosing operation.
* Calls to the document store are recorded in a trace, so that "no write was
  performed" is a statement about the trace.
* `DEBUG`, `INFO` and `ERR` only print; they are left out.
* `api.Domain` / `api.Port` select the host the store client talks to and do
  not influence any result modelled here.
-/

namespace Packetbeat

/-! ## Data model -/

/-- Go `map[string]string`. -/
abbrev GoMap := String → Option String

/-- Value of `make(map[string]string)`. -/
def GoMap.make : GoMap := fun _ => none

/-- Assignment `m[k] = v`. -/
def GoMap.set (m : GoMap) (k v : String) : GoMap :=
  fun k' => if k' = k then some v else m k'

/-- Two-valued lookup `v, exists := m[k]`; a missing key yields the zero value. -/
def GoMap.lookup (m : GoMap) (k : String) : String × Bool :=
  match m k with
  | some v => (v, true)
  | none => ("", false)

/-- Fields of `PublisherType` (the timer channel carries no data used here). -/
structure PublisherType where
  name : String
  url : String
  mother_host : String
  mother_port : String
  TopologyMap : GoMap

/-- Value stored in a `bson.M` document. -/
inductive Bson where
  | str (s : String)
  | num (n : Int)
  | doc (fields : List (String × Bson))
  | null

/-- Document type `bson.M`. -/
abbrev BsonM := List (String × Bson)

/-- Indexing `m[key]` on a `bson.M`: the stored value, or nil when absent. -/
def BsonM.get (m : BsonM) (key : String) : Bson :=
  match m.find? (fun kv => kv.1 == key) with
  | some kv => kv.2
  | none => Bson.null

/-- Type assertion `x.(string)`; `none` stands for the run-time panic. -/
def Bson.assertString : Bson → Option String
  | Bson.str s => some s
  | _ => none

/-- Type assertion `x.(bson.M)`; `none` stands for the run-time panic. -/
def Bson.assertDoc : Bson → Option BsonM
  | Bson.doc fields => some fields
  | _ => none

/-- Calendar fields of a `time.Time` read by the publisher. -/
structure Time where
  Year : Nat
  Month : Nat
  Day : Nat
  deriving DecidableEq

/-- One side of a transaction (`t.Src`, `t.Dst`). -/
structure Endpoint where
  Ip : String
  Port : Nat
  Proc : String

/-- Fields of `HttpTransaction` read by the publisher. -/
structure HttpTransaction where
  ts : Time
  Src : Endpoint
  Dst : Endpoint
  ResponseTime : Int
  Request_raw : String
  Response_raw : String
  Http : BsonM

/-- Fields of `MysqlTransaction` read by the publisher. -/
structure MysqlTransaction where
  ts : Time
  Src : Endpoint
  Dst : Endpoint
  ResponseTime : Int
  Request_raw : String
  Response_raw : String
  Mysql : BsonM

/-- Fields of `RedisTransaction` read by the publisher. -/
structure RedisTransaction where
  ts : Time
  Src : Endpoint
  Dst : Endpoint
  ResponseTime : Int
  Request_raw : String
  Response_raw : String
  Redis : BsonM

/-- Record `Event`, in the field order of the Go struct. -/
structure Event where
  Timestamp : Time
  Type_ : String
  Src_ip : String
  Src_port : Nat
  Src_proc : String
  Src_country : String
  Src_server : String
  Dst_ip : String
  Dst_port : Nat
  Dst_proc : String
  Dst_server : String
  ResponseTime : Int
  Status : String
  RequestRaw : String
  ResponseRaw : String
  Mysql : Option BsonM
  Http : Option BsonM
  Redis : Option BsonM

/-- Record `Topology`: one directory entry. -/
structure Topology where
  Name : String
  Ip : String
  deriving DecidableEq

/-- One call `core.Index(index, type, "", nil, event)` on the event store. -/
structure IndexCall where
  index : String
  type : String
  event : Event

/-- What a `Publish*Transaction` call did: the error it returned (`none` is
nil) and the writes it issued to the event store. -/
structure PublishResult where
  err : Option String
  writes : List IndexCall

/-! ## Helpers -/

/-- Formatting verb `%02d` on a natural number. -/
def pad2 (n : Nat) : String :=
  if n < 10 then "0" ++ toString n else toString n

/-- Index name `fmt.Sprintf("packetbeat-%d.%02d.%02d", year, month, day)`. -/
def indexName (ts : Time) : String :=
  "packetbeat-" ++ toString ts.Year ++ "." ++ pad2 ts.Month ++ "." ++ pad2 ts.Day

/-! ## `GetServerName` -/

/-- Method `GetServerName`. The classifier `IsLoopback` lives outside this
file and is a parameter: it returns `.ok b` for `(b, nil)` and `.error e`
for a parse failure. -/
def GetServerName (IsLoopback : String → Except String Bool)
    (publisher : PublisherType) (ip : String) : String :=
  match IsLoopback ip with
  | .error _ => ""
  | .ok islocal =>
    if islocal then publisher.name
    else
      let (name, exists_) := publisher.TopologyMap.lookup ip
      if !exists_ then "" else name

/-! ## Publishing transactions -/

/-- Expression `t.Http["response"].(bson.M)["phrase"].(string)`; `none` when
one of the two type assertions panics. -/
def httpPhrase (http : BsonM) : Option String :=
  ((http.get "response").assertDoc).bind
    (fun response => (BsonM.get response "phrase").assertString)

/-- Expression `t.Mysql["error_message"].(string)`; `none` when the type
assertion panics. -/
def mysqlErrorMessage (mysql : BsonM) : Option String :=
  (mysql.get "error_message").assertString

/-- Method `PublishHttpTransaction`. `GeoLite` is the optional geolocation
database (`none` when `_GeoLite == nil`), returning a country code when the
location is known; `coreIndex` is the error returned by `core.Index`. -/
def PublishHttpTransaction (IsLoopback : String → Except String Bool)
    (GeoLite : Option (String → Option String))
    (coreIndex : IndexCall → Option String)
    (publisher : PublisherType) (t : HttpTransaction) : Option PublishResult :=
  let index := indexName t.ts
  match httpPhrase t.Http with
  | none => none
  | some status =>
    let src_server := GetServerName IsLoopback publisher t.Src.Ip
    let dst_server := GetServerName IsLoopback publisher t.Dst.Ip
    if dst_server ≠ publisher.name then
      some { err := none, writes := [] }
    else
      let src_country :=
        match GeoLite with
        | none => ""
        | some geo =>
          if src_server.length = 0 then
            match geo t.Src.Ip with
            | some countryCode => countryCode
            | none => ""
          else ""
      let call : IndexCall :=
        { index := index, type := "http",
          event :=
            { Timestamp := t.ts, Type_ := "http", Src_ip := t.Src.Ip, Src_port := t.Src.Port,
              Src_proc := t.Src.Proc, Src_country := src_country, Src_server := src_server,
              Dst_ip := t.Dst.Ip, Dst_port := t.Dst.Port, Dst_proc := t.Dst.Proc,
              Dst_server := dst_server, ResponseTime := t.ResponseTime, Status := status,
              RequestRaw := t.Request_raw, ResponseRaw := t.Response_raw,
              Mysql := none, Http := some t.Http, Redis := none } }
      some { err := coreIndex call, writes := [call] }

/-- Method `PublishMysqlTransaction`. -/
def PublishMysqlTransaction (IsLoopback : String → Except String Bool)
    (coreIndex : IndexCall → Option String)
    (publisher : PublisherType) (t : MysqlTransaction) : Option PublishResult :=
  let index := indexName t.ts
  match mysqlErrorMessage t.Mysql with
  | none => none
  | some msg =>
    let status := if msg.length = 0 then "OK" else msg
    let src_server := GetServerName IsLoopback publisher t.Src.Ip
    let dst_server := GetServerName IsLoopback publisher t.Dst.Ip
    let call : IndexCall :=
      { index := index, type := "mysql",
        event :=
          { Timestamp := t.ts, Type_ := "mysql", Src_ip := t.Src.Ip, Src_port := t.Src.Port,
            Src_proc := t.Src.Proc, Src_country := "", Src_server := src_server,
            Dst_ip := t.Dst.Ip, Dst_port := t.Dst.Port, Dst_proc := t.Dst.Proc,
            Dst_server := dst_server, ResponseTime := t.ResponseTime, Status := status,
            RequestRaw := t.Request_raw, ResponseRaw := t.Response_raw,
            Mysql := some t.Mysql, Http := none, Redis := none } }
    some { err := coreIndex call, writes := [call] }

/-- Method `PublishRedisTransaction`. -/
def PublishRedisTransaction (IsLoopback : String → Except String Bool)
    (coreIndex : IndexCall → Option String)
    (publisher : PublisherType) (t : RedisTransaction) : Option PublishResult :=
  let index := indexName t.ts
  let status := "OK"
  let src_server := GetServerName IsLoopback publisher t.Src.Ip
  let dst_server := GetServerName IsLoopback publisher t.Dst.Ip
  let call : IndexCall :=
    { index := index, type := "redis",
      event :=
        { Timestamp := t.ts, Type_ := "redis", Src_ip := t.Src.Ip, Src_port := t.Src.Port,
          Src_proc := t.Src.Proc, Src_country := "", Src_server := src_server,
          Dst_ip := t.Dst.Ip, Dst_port := t.Dst.Port, Dst_proc := t.Dst.Proc,
          Dst_server := dst_server, ResponseTime := t.ResponseTime, Status := status,
          RequestRaw := t.Request_raw, ResponseRaw := t.Response_raw,
          Mysql := none, Http := none, Redis := some t.Redis } }
  some { err := coreIndex call, writes := [call] }

/-! ## `UpdateTopology` -/

/-- Method `UpdateTopology`. `coreSearchUri` is the outcome of
`core.SearchUri("packetbeat-topology", "server-ip", nil)`: an error, or the
hits, each given by the value `top` holds after `json.Unmarshal` (a failed
unmarshal is only logged, and the mapping is added all the same). -/
def UpdateTopology (coreSearchUri : Except String (List Topology))
    (publisher : PublisherType) : PublisherType :=
  let TopologyMapTmp : GoMap :=
    match coreSearchUri with
    | .ok hits => hits.foldl (fun m top => m.set top.Ip top.Name) GoMap.make
    | .error _ => GoMap.make
  { publisher with TopologyMap := TopologyMapTmp }

/-! ## The directory store

The collection `packetbeat-topology` / `server-ip` of the external document
store, as a finite map from document id to entry, kept as a list of
`(id, entry)` pairs. -/

/-- Content of the directory collection. -/
abbrev Directory := List (String × Topology)

/-- A directory is a map keyed by IP: ids are pairwise distinct and the id of
every entry is its `Ip` field. -/
def Directory.WellFormed (docs : Directory) : Prop :=
  (docs.map Prod.fst).Nodup ∧ ∀ d ∈ docs, d.2.Ip = d.1

instance (docs : Directory) : Decidable docs.WellFormed := by
  unfold Directory.WellFormed
  infer_instance

/-- Hits of the term query on `name`: the entries whose name is the one
searched for (the search is taken to return all of them). -/
def esSearchName (docs : Directory) (name : String) : List Topology :=
  (docs.filter (fun d => d.2.Name == name)).map Prod.snd

/-- Effect of a successful delete by id. -/
def esDelete (docs : Directory) (id : String) : Directory :=
  docs.filter (fun d => d.1 != id)

/-- Result of a successful exists-by-id. -/
def esExists (docs : Directory) (id : String) : Bool :=
  docs.any (fun d => d.1 == id)

/-- Effect of a successful index with an explicit id: the document is created,
or replaces the one stored under that id. -/
def esIndex (docs : Directory) (id : String) (doc : Topology) : Directory :=
  if esExists docs id then docs.map (fun d => if d.1 == id then (id, doc) else d)
  else docs ++ [(id, doc)]

/-- Calls made to the directory store, in the order they are issued. -/
inductive StoreOp where
  | search (name : String)
  | delete (id : String)
  | «exists» (id : String)
  | index (id : String) (doc : Topology)
  deriving DecidableEq

/-- A write is an index or a delete. -/
def StoreOp.isWrite : StoreOp → Bool
  | StoreOp.delete _ => true
  | StoreOp.index _ _ => true
  | _ => false

/-- Errors returned by the store client: `none` means the call succeeds.
A failing call leaves the directory as it is. The `Ok` flag of a delete or
index response is only logged by the caller and is not part of the model. -/
structure Faults where
  search : Option String
  delete : String → Option String
  existsErr : String → Option String
  index : String → Option String

/-- Store on which every operation succeeds. -/
def noFaults : Faults :=
  { search := none, delete := fun _ => none, existsErr := fun _ => none,
    index := fun _ => none }

/-! ## `PublishTopology` -/

/-- Modelled from the spec: `stringInSlice` is defined in another file of the
repository; the spec describes its use as "address is no longer in
`localAddresses`", that is, membership of the string in the slice. -/
def stringInSlice (a : String) (list : List String) : Bool :=
  list.any (fun b => b == a)

/-- Loop "delete old IP addresses" of `PublishTopology` over the hits of the
search: the directory after the loop and the store calls it made. -/
def deleteOldAddrs (faults : Faults) (localAddrs : List String) :
    List Topology → Directory → Directory × List StoreOp
  | [], docs => (docs, [])
  | top :: rest, docs =>
    if !stringInSlice top.Ip localAddrs then
      let docs1 := match faults.delete top.Ip with
        | none => esDelete docs top.Ip
        | some _ => docs
      let r := deleteOldAddrs faults localAddrs rest docs1
      (r.1, StoreOp.delete top.Ip :: r.2)
    else deleteOldAddrs faults localAddrs rest docs

/-- Entries left in place by the deletion loop run over `hits` when every
delete succeeds: no hit outside `localAddrs` carries their id. -/
def survives (localAddrs : List String) (hits : List Topology) (d : String × Topology) : Bool :=
  hits.all (fun top => stringInSlice top.Ip localAddrs || d.1 != top.Ip)

/-- Outcome of the loop "add new IP addresses". -/
structure AddResult where
  err : Option String
  docs : Directory
  trace : List StoreOp

/-- Loop "add new IP addresses" of `PublishTopology`: for each address an
exists-check, then an index when the address is absent; an error of the index
call is returned at once. -/
def addNewAddrs (faults : Faults) (name : String) : List String → Directory → AddResult
  | [], docs => { err := none, docs := docs, trace := [] }
  | addr :: rest, docs =>
    match faults.existsErr addr with
    | some _ =>
      let r := addNewAddrs faults name rest docs
      { r with trace := StoreOp.exists addr :: r.trace }
    | none =>
      if !esExists docs addr then
        match faults.index addr with
        | some err =>
          { err := some err, docs := docs,
            trace := [StoreOp.exists addr, StoreOp.index addr { Name := name, Ip := addr }] }
        | none =>
          let r := addNewAddrs faults name rest
            (esIndex docs addr { Name := name, Ip := addr })
          { r with trace := StoreOp.exists addr ::
              StoreOp.index addr { Name := name, Ip := addr } :: r.trace }
      else
        let r := addNewAddrs faults name rest docs
        { r with trace := StoreOp.exists addr :: r.trace }

/-- What a call of `PublishTopology` did: the error returned (`none` is nil),
the publisher and the directory afterwards, and the store calls made. -/
structure TopologyResult where
  err : Option String
  publisher : PublisherType
  docs : Directory
  trace : List StoreOp

/-- Search and delete phase of `PublishTopology`; a failed search skips the
deletions. -/
def deletePhase (faults : Faults) (name : String) (localAddrs : List String)
    (docs : Directory) : Directory × List StoreOp :=
  match faults.search with
  | none =>
    let r := deleteOldAddrs faults localAddrs (esSearchName docs name) docs
    (r.1, StoreOp.search name :: r.2)
  | some _ => (docs, [StoreOp.search name])

/-- Method `PublishTopology(params...)`. `LocalAddrs` is the outcome of the
address discovery used when no address is passed. -/
def PublishTopology (faults : Faults) (LocalAddrs : Except String (List String))
    (publisher : PublisherType) (docs : Directory) (params : List String) :
    TopologyResult :=
  match (if params.length = 0 then LocalAddrs else .ok params) with
  | .error err => { err := some err, publisher := publisher, docs := docs, trace := [] }
  | .ok localAddrs =>
    let d := deletePhase faults publisher.name localAddrs docs
    let r := addNewAddrs faults publisher.name localAddrs d.1
    match r.err with
    | some err =>
      { err := some err, publisher := publisher, docs := r.docs, trace := d.2 ++ r.trace }
    | none =>
      { err := none, publisher := { publisher with TopologyMap := GoMap.make },
        docs := r.docs, trace := d.2 ++ r.trace }

/-- Existence checks of a trace, in order. -/
def existsChecks (trace : List StoreOp) : List String :=
  trace.filterMap (fun op => match op with
    | StoreOp.exists id => some id
    | _ => none)

/-- Ids passed to index calls of a trace, in order. -/
def indexedIds (trace : List StoreOp) : List String :=
  trace.filterMap (fun op => match op with
    | StoreOp.index id _ => some id
    | _ => none)

/-! ## Sample data

The agent `web1` of the end-to-end scenario, with the directory snapshot
`{10.0.0.5: "web1", 10.0.0.9: "db1"}`, and a stand-in for the address
classifier used to evaluate the operations on concrete inputs. -/

/-- Stand-in for `IsLoopback` on a handful of addresses: `127.0.0.1` and `::1`
are loopback, four routable addresses are not, and every other string is
treated as a parse failure. -/
def sampleIsLoopback (ip : String) : Except String Bool :=
  if ip = "127.0.0.1" ∨ ip = "::1" then .ok true
  else if ip = "10.0.0.5" ∨ ip = "10.0.0.9" ∨ ip = "10.0.0.7" ∨ ip = "8.8.8.8" then .ok false
  else .error ("Wrong IP format " ++ ip)

/-- Snapshot `{10.0.0.5: "web1", 10.0.0.9: "db1"}`. -/
def sampleMap : GoMap :=
  (GoMap.make.set "10.0.0.5" "web1").set "10.0.0.9" "db1"

/-- Agent `web1` holding `sampleMap`. -/
def web1 : PublisherType :=
  { name := "web1", url := "localhost:9200", mother_host := "localhost",
    mother_port := "9200", TopologyMap := sampleMap }

/-- Agent `web1` whose snapshot attributes the loopback address to `db1`. -/
def web1Shadowed : PublisherType :=
  { web1 with TopologyMap := GoMap.make.set "127.0.0.1" "db1" }

/-- Agent whose name is the empty string, with an empty snapshot. -/
def unnamedAgent : PublisherType :=
  { name := "", url := "localhost:9200", mother_host := "localhost",
    mother_port := "9200", TopologyMap := GoMap.make }

/-- Payload of an Http transaction answered with `200 OK`. -/
def sampleHttp : BsonM :=
  [("request", Bson.doc [("method", Bson.str "GET")]),
   ("response", Bson.doc [("code", Bson.num 200), ("phrase", Bson.str "OK")])]

/-- Http transaction from `src` to `dst`. -/
def httpBetween (src dst : String) : HttpTransaction :=
  { ts := { Year := 2014, Month := 3, Day := 7 },
    Src := { Ip := src, Port := 41000, Proc := "" },
    Dst := { Ip := dst, Port := 80, Proc := "nginx" },
    ResponseTime := 12, Request_raw := "GET / HTTP/1.1", Response_raw := "HTTP/1.1 200 OK",
    Http := sampleHttp }

/-- Mysql transaction from `src` to `dst` with the given `error_message`. -/
def mysqlBetween (src dst msg : String) : MysqlTransaction :=
  { ts := { Year := 2014, Month := 3, Day := 7 },
    Src := { Ip := src, Port := 41000, Proc := "" },
    Dst := { Ip := dst, Port := 3306, Proc := "mysqld" },
    ResponseTime := 3, Request_raw := "select 1", Response_raw := "",
    Mysql := [("query", Bson.str "select 1"), ("error_message", Bson.str msg)] }

/-- Redis transaction from `src` to `dst`. -/
def redisBetween (src dst : String) : RedisTransaction :=
  { ts := { Year := 2014, Month := 3, Day := 7 },
    Src := { Ip := src, Port := 41000, Proc := "" },
    Dst := { Ip := dst, Port := 6379, Proc := "redis-server" },
    ResponseTime := 1, Request_raw := "GET k", Response_raw := "v",
    Redis := [("request", Bson.str "GET k"), ("response", Bson.str "v")] }

/-- Store client whose `core.Index` always succeeds. -/
def indexOk : IndexCall → Option String := fun _ => none

/-- Directory in which `web1` holds `10.0.0.5` and a stale `10.0.0.7`, and
`db1` holds `10.0.0.9`. -/
def sampleDirectory : Directory :=
  [("10.0.0.5", { Name := "web1", Ip := "10.0.0.5" }),
   ("10.0.0.9", { Name := "db1", Ip := "10.0.0.9" }),
   ("10.0.0.7", { Name := "web1", Ip := "10.0.0.7" })]

/-- Fetch result listing the two agents of the scenario. -/
def sampleHits : List Topology :=
  [{ Name := "web1", Ip := "10.0.0.5" }, { Name := "db1", Ip := "10.0.0.9" }]

/-- Fetch result listing the ip `10.0.0.5` twice, under two names. -/
def conflictingHits : List Topology :=
  [{ Name := "a", Ip := "10.0.0.5" }, { Name := "b", Ip := "10.0.0.5" }]

/-- Agent `web1` holding an older snapshot that still lists `10.0.0.7`. -/
def web1Stale : PublisherType :=
  { web1 with TopologyMap := (GoMap.make.set "10.0.0.7" "web1").set "10.0.0.5" "old" }

/-- Directory holding only the entry of `db1`. -/
def db1Directory : Directory :=
  [("10.0.0.9", { Name := "db1", Ip := "10.0.0.9" })]

/-- Store on which indexing the document `10.0.0.5` fails. -/
def indexFaultAt5 : Faults :=
  { noFaults with index := fun id => if id = "10.0.0.5" then some "connection refused" else none }

/-! ## Properties of `GetServerName` -/

theorem string_length_eq_zero (s : String) : s.length = 0 ↔ s = "" := by
  constructor
  · intro h
    cases s with
    | mk data =>
      have hd : data = [] := List.length_eq_zero.mp h
      subst hd
      rfl
  · intro h
    subst h
    rfl

theorem getServerName_of_not_loopback (IsLoopback : String → Except String Bool)
    (publisher : PublisherType) (ip : String) (h : IsLoopback ip = .ok false) :
    GetServerName IsLoopback publisher ip = (publisher.TopologyMap ip).getD "" := by
  unfold GetServerName GoMap.lookup
  rw [h]
  cases hm : publisher.TopologyMap ip <;> simp

theorem getServerName_of_error (IsLoopback : String → Except String Bool)
    (publisher : PublisherType) (ip e : String) (h : IsLoopback ip = .error e) :
    GetServerName IsLoopback publisher ip = "" := by
  unfold GetServerName
  rw [h]

/-- C3: for every publisher state and every IP string that the classifier
reports as loopback, `GetServerName` returns the publisher's own name,
whatever `TopologyMap` holds for that IP. -/
theorem getServerName_loopback (IsLoopback : String → Except String Bool)
    (publisher : PublisherType) (ip : String) (h : IsLoopback ip = .ok true) :
    GetServerName IsLoopback publisher ip = publisher.name := by
  unfold GetServerName
  rw [h]
  simp

theorem getServerName_loopback_witness :
    sampleIsLoopback "127.0.0.1" = .ok true ∧
      web1Shadowed.TopologyMap "127.0.0.1" = some "db1" ∧
      GetServerName sampleIsLoopback web1Shadowed "127.0.0.1" = web1Shadowed.name :=
  ⟨rfl, by decide, getServerName_loopback sampleIsLoopback web1Shadowed "127.0.0.1" rfl⟩

/-- C4 (as stated) fails: the loopback address is a key of the snapshot mapped
to `db1`, yet `GetServerName` answers `web1`; and `::1` is not a key, yet the
answer is `web1` rather than the empty string. -/
theorem getServerName_key_counterexample :
    web1Shadowed.TopologyMap "127.0.0.1" = some "db1" ∧
      GetServerName sampleIsLoopback web1Shadowed "127.0.0.1" = "web1" ∧
      GetServerName sampleIsLoopback web1Shadowed "127.0.0.1" ≠ "db1" ∧
      web1Shadowed.TopologyMap "::1" = none ∧
      GetServerName sampleIsLoopback web1Shadowed "::1" ≠ "" := by
  decide

/-- C4 (amended): for every publisher state and every IP string that the
classifier parses and reports as not loopback, `GetServerName` returns the
mapped name when the IP is a key of `TopologyMap`, and the empty string when
it is not a key. -/
theorem getServerName_lookup (IsLoopback : String → Except String Bool)
    (publisher : PublisherType) (ip : String) (h : IsLoopback ip = .ok false) :
    (∀ name, publisher.TopologyMap ip = some name →
        GetServerName IsLoopback publisher ip = name) ∧
      (publisher.TopologyMap ip = none → GetServerName IsLoopback publisher ip = "") := by
  rw [getServerName_of_not_loopback IsLoopback publisher ip h]
  constructor
  · intro name hn
    rw [hn]
    rfl
  · intro hn
    rw [hn]
    rfl

theorem getServerName_lookup_witness :
    sampleIsLoopback "10.0.0.9" = .ok false ∧
      ((∀ name, web1.TopologyMap "10.0.0.9" = some name →
          GetServerName sampleIsLoopback web1 "10.0.0.9" = name) ∧
        (web1.TopologyMap "10.0.0.9" = none →
          GetServerName sampleIsLoopback web1 "10.0.0.9" = "")) :=
  ⟨rfl, getServerName_lookup sampleIsLoopback web1 "10.0.0.9" rfl⟩

/-! ## Properties of the publish operations -/

theorem getServerName_of_unresolved (IsLoopback : String → Except String Bool)
    (publisher : PublisherType) (ip : String) (hloop : IsLoopback ip ≠ .ok true)
    (hkey : publisher.TopologyMap ip = none) :
    GetServerName IsLoopback publisher ip = "" := by
  cases hc : IsLoopback ip with
  | error e => exact getServerName_of_error IsLoopback publisher ip e hc
  | ok b =>
    cases b with
    | true => exact absurd hc hloop
    | false =>
      rw [getServerName_of_not_loopback IsLoopback publisher ip hc, hkey]
      rfl

/-- C1 (as stated) fails for an agent whose name is the empty string: the
destination `8.8.8.8` is neither loopback nor a key of the snapshot, so it
resolves to no owner, and still the Http event is written. -/
theorem publishHttp_unnamed_counterexample :
    sampleIsLoopback "8.8.8.8" = .ok false ∧
      unnamedAgent.TopologyMap "8.8.8.8" = none ∧
      GetServerName sampleIsLoopback unnamedAgent "8.8.8.8" = "" ∧
      (PublishHttpTransaction sampleIsLoopback none indexOk unnamedAgent
          (httpBetween "10.0.0.9" "8.8.8.8")).map (fun r => r.writes.length) = some 1 :=
  ⟨rfl, by decide, by decide, by decide⟩

/-- C1 (amended): for every publisher state whose name is not the empty string
and every Http transaction whose payload carries a response phrase,
`PublishHttpTransaction` returns, and it writes an event if and only if the
destination resolves to an owner (a non-empty server name) equal to this
agent's name; when the owner differs from this agent, and in particular when
the destination is unresolved, nothing is written and nil is returned. -/
theorem publishHttp_iff_owner (IsLoopback : String → Except String Bool)
    (GeoLite : Option (String → Option String)) (coreIndex : IndexCall → Option String)
    (publisher : PublisherType) (t : HttpTransaction) (status : String)
    (hphrase : httpPhrase t.Http = some status) (hname : publisher.name ≠ "") :
    ∃ r, PublishHttpTransaction IsLoopback GeoLite coreIndex publisher t = some r ∧
      (r.writes ≠ [] ↔
        (GetServerName IsLoopback publisher t.Dst.Ip ≠ "" ∧
          GetServerName IsLoopback publisher t.Dst.Ip = publisher.name)) ∧
      (GetServerName IsLoopback publisher t.Dst.Ip ≠ publisher.name →
        r.writes = [] ∧ r.err = none) ∧
      (IsLoopback t.Dst.Ip ≠ .ok true → publisher.TopologyMap t.Dst.Ip = none →
        r.writes = [] ∧ r.err = none) := by
  by_cases hd : GetServerName IsLoopback publisher t.Dst.Ip = publisher.name
  · have hrun : ∃ call, PublishHttpTransaction IsLoopback GeoLite coreIndex publisher t
        = some { err := coreIndex call, writes := [call] } := by
      simp only [PublishHttpTransaction, hphrase, hd, ne_eq, not_true_eq_false, if_false]
      exact ⟨_, rfl⟩
    obtain ⟨call, hcall⟩ := hrun
    refine ⟨_, hcall, ?_, ?_, ?_⟩
    · simp [hd, hname]
    · intro hne
      exact absurd hd hne
    · intro hloop hkey
      have h0 := getServerName_of_unresolved IsLoopback publisher t.Dst.Ip hloop hkey
      exact absurd (hd.symm.trans h0) hname
  · have hrun : PublishHttpTransaction IsLoopback GeoLite coreIndex publisher t
        = some { err := none, writes := [] } := by
      simp [PublishHttpTransaction, hphrase, hd]
    refine ⟨_, hrun, ?_, ?_, ?_⟩
    · simp [hd]
    · intro _
      exact ⟨rfl, rfl⟩
    · intro _ _
      exact ⟨rfl, rfl⟩

theorem publishHttp_iff_owner_witness :
    ∃ r, PublishHttpTransaction sampleIsLoopback none indexOk web1
        (httpBetween "10.0.0.9" "10.0.0.5") = some r ∧
      (r.writes ≠ [] ↔
        (GetServerName sampleIsLoopback web1 (httpBetween "10.0.0.9" "10.0.0.5").Dst.Ip ≠ "" ∧
          GetServerName sampleIsLoopback web1 (httpBetween "10.0.0.9" "10.0.0.5").Dst.Ip
            = web1.name)) ∧
      (GetServerName sampleIsLoopback web1 (httpBetween "10.0.0.9" "10.0.0.5").Dst.Ip
          ≠ web1.name → r.writes = [] ∧ r.err = none) ∧
      (sampleIsLoopback (httpBetween "10.0.0.9" "10.0.0.5").Dst.Ip ≠ .ok true →
        web1.TopologyMap (httpBetween "10.0.0.9" "10.0.0.5").Dst.Ip = none →
        r.writes = [] ∧ r.err = none) :=
  publishHttp_iff_owner sampleIsLoopback none indexOk web1
    (httpBetween "10.0.0.9" "10.0.0.5") "OK" rfl (by decide)

/-- C2: evaluation at the failing input. On `web1` the destination
`10.0.0.9` resolves to `db1`, which is not this agent; the Http operation
writes nothing, while the Mysql and the Redis operation each issue one write
to the event store. -/
theorem publishMysqlRedis_write_foreign_destination :
    GetServerName sampleIsLoopback web1 "10.0.0.9" = "db1" ∧
      GetServerName sampleIsLoopback web1 "10.0.0.9" ≠ web1.name ∧
      (PublishHttpTransaction sampleIsLoopback none indexOk web1
          (httpBetween "10.0.0.5" "10.0.0.9")).map (fun r => r.writes.length) = some 0 ∧
      (PublishMysqlTransaction sampleIsLoopback indexOk web1
          (mysqlBetween "10.0.0.5" "10.0.0.9" "")).map (fun r => r.writes.length) = some 1 ∧
      (PublishRedisTransaction sampleIsLoopback indexOk web1
          (redisBetween "10.0.0.5" "10.0.0.9")).map (fun r => r.writes.length) = some 1 := by
  decide

/-- C9: for every Mysql transaction whose payload has a string
`error_message`, `PublishMysqlTransaction` writes exactly one event, whose
status is `"OK"` when the message is empty and the message itself otherwise;
for every Redis transaction `PublishRedisTransaction` writes exactly one
event, whose status is `"OK"`. -/
theorem publish_status (IsLoopback : String → Except String Bool)
    (coreIndex : IndexCall → Option String) (publisher : PublisherType)
    (tm : MysqlTransaction) (tr : RedisTransaction) (msg : String)
    (hmsg : mysqlErrorMessage tm.Mysql = some msg) :
    (∃ call, PublishMysqlTransaction IsLoopback coreIndex publisher tm
          = some { err := coreIndex call, writes := [call] } ∧
        call.type = "mysql" ∧
        call.event.Status = if msg = "" then "OK" else msg) ∧
      (∃ call, PublishRedisTransaction IsLoopback coreIndex publisher tr
          = some { err := coreIndex call, writes := [call] } ∧
        call.type = "redis" ∧
        call.event.Status = "OK") := by
  constructor
  · have hrun : ∃ call, PublishMysqlTransaction IsLoopback coreIndex publisher tm
          = some { err := coreIndex call, writes := [call] } ∧ call.type = "mysql" ∧
        call.event.Status = if msg.length = 0 then "OK" else msg := by
      simp only [PublishMysqlTransaction, hmsg]
      exact ⟨_, rfl, rfl, rfl⟩
    simpa only [string_length_eq_zero] using hrun
  · exact ⟨_, rfl, rfl, rfl⟩

theorem publish_status_witness :
    (∃ call, PublishMysqlTransaction sampleIsLoopback indexOk web1
          (mysqlBetween "10.0.0.9" "10.0.0.5" "Unknown table users")
          = some { err := indexOk call, writes := [call] } ∧
        call.type = "mysql" ∧
        call.event.Status =
          if "Unknown table users" = "" then "OK" else "Unknown table users") ∧
      (∃ call, PublishRedisTransaction sampleIsLoopback indexOk web1
          (redisBetween "10.0.0.9" "10.0.0.5")
          = some { err := indexOk call, writes := [call] } ∧
        call.type = "redis" ∧
        call.event.Status = "OK") :=
  publish_status sampleIsLoopback indexOk web1
    (mysqlBetween "10.0.0.9" "10.0.0.5" "Unknown table users")
    (redisBetween "10.0.0.9" "10.0.0.5") "Unknown table users" rfl

/-! ## Properties of `UpdateTopology` -/

/-- Map built by the loop of `UpdateTopology` from the hits. -/
theorem updateTopology_map (publisher : PublisherType) (hits : List Topology) :
    (UpdateTopology (.ok hits) publisher).TopologyMap
      = hits.foldl (fun m top => m.set top.Ip top.Name) GoMap.make := rfl

theorem foldl_set_snoc (m0 : GoMap) (init : List Topology) (last : Topology) (ip : String) :
    (init ++ [last]).foldl (fun m top => GoMap.set m top.Ip top.Name) m0 ip
      = if ip = last.Ip then some last.Name
        else init.foldl (fun m top => GoMap.set m top.Ip top.Name) m0 ip := by
  rw [List.foldl_append]
  rfl

theorem foldl_set_of_absent (m0 : GoMap) (hits : List Topology) (ip : String)
    (h : ∀ top ∈ hits, top.Ip ≠ ip) :
    hits.foldl (fun m top => GoMap.set m top.Ip top.Name) m0 ip = m0 ip := by
  induction hits using List.reverseRecOn with
  | nil => rfl
  | append_singleton init last ih =>
    rw [foldl_set_snoc]
    have hlast : ip ≠ last.Ip := fun hc => h last (by simp) hc.symm
    rw [if_neg hlast]
    exact ih (fun top ht => h top (by simp [ht]))

theorem foldl_set_some (m0 : GoMap) (hits : List Topology) (ip name : String)
    (h : hits.foldl (fun m top => GoMap.set m top.Ip top.Name) m0 ip = some name) :
    m0 ip = some name ∨ ({ Name := name, Ip := ip } : Topology) ∈ hits := by
  induction hits using List.reverseRecOn with
  | nil => exact Or.inl h
  | append_singleton init last ih =>
    rw [foldl_set_snoc] at h
    by_cases hlast : ip = last.Ip
    · rw [if_pos hlast] at h
      right
      have hn : last.Name = name := Option.some.inj h
      have : last = { Name := name, Ip := ip } := by
        cases last
        simp_all
      simp [← this]
    · rw [if_neg hlast] at h
      rcases ih h with h1 | h1
      · exact Or.inl h1
      · exact Or.inr (by simp [h1])

theorem foldl_set_keeps (m0 : GoMap) (post : List Topology) (ip name : String)
    (hm : m0 ip = some name)
    (hpost : ∀ other ∈ post, other.Ip = ip → other.Name = name) :
    post.foldl (fun m t => GoMap.set m t.Ip t.Name) m0 ip = some name := by
  induction post generalizing m0 with
  | nil => exact hm
  | cons h rest ih =>
    rw [List.foldl_cons]
    apply ih
    · unfold GoMap.set
      by_cases hip : ip = h.Ip
      · rw [if_pos hip, hpost h (by simp) hip.symm]
      · rw [if_neg hip]
        exact hm
    · exact fun other ho => hpost other (by simp [ho])

theorem foldl_set_key_of_mem (m0 : GoMap) (hits : List Topology) (top : Topology)
    (hmem : top ∈ hits) :
    hits.foldl (fun m t => GoMap.set m t.Ip t.Name) m0 top.Ip ≠ none := by
  induction hits using List.reverseRecOn with
  | nil => simp at hmem
  | append_singleton init last ih =>
    rw [foldl_set_snoc]
    by_cases hlast : top.Ip = last.Ip
    · rw [if_pos hlast]
      simp
    · rw [if_neg hlast]
      have hin : top ∈ init := by
        rcases List.mem_append.mp hmem with h1 | h1
        · exact h1
        · simp at h1
          exact absurd (by rw [h1]) hlast
      exact ih hin

/-- C5 (as stated) fails: the fetch lists `10.0.0.5` first under the name `a`
and then under the name `b`; the map built by `UpdateTopology` binds
`10.0.0.5` to `b`, so the fetched entry `(a, 10.0.0.5)` is not present. -/
theorem updateTopology_conflict_counterexample :
    ({ Name := "a", Ip := "10.0.0.5" } : Topology) ∈ conflictingHits ∧
      (UpdateTopology (.ok conflictingHits) web1).TopologyMap "10.0.0.5" = some "b" ∧
      (UpdateTopology (.ok conflictingHits) web1).TopologyMap "10.0.0.5" ≠ some "a" := by
  decide

/-- C5 (amended): for every prior `TopologyMap` and every successful fetch
returning the entries `hits`, the map after `UpdateTopology` is built from the
fetched entries alone: its keys are exactly the fetched ips, every binding it
holds is a fetched entry, a fetched entry is present unless a later entry of
the same fetch carries its ip under a different name, no ip absent from the
fetch is a key whatever the prior map held, and an empty fetch yields the
empty map. -/
theorem updateTopology_snapshot (publisher : PublisherType) (hits : List Topology) :
    (∀ ip, (UpdateTopology (.ok hits) publisher).TopologyMap ip ≠ none ↔
        ∃ top ∈ hits, top.Ip = ip) ∧
      (∀ ip name, (UpdateTopology (.ok hits) publisher).TopologyMap ip = some name →
        ({ Name := name, Ip := ip } : Topology) ∈ hits) ∧
      (∀ pre top post, hits = pre ++ top :: post →
        (∀ other ∈ post, other.Ip = top.Ip → other.Name = top.Name) →
        (UpdateTopology (.ok hits) publisher).TopologyMap top.Ip = some top.Name) ∧
      (∀ ip, (∀ top ∈ hits, top.Ip ≠ ip) →
        (UpdateTopology (.ok hits) publisher).TopologyMap ip = none) ∧
      (hits = [] → (UpdateTopology (.ok hits) publisher).TopologyMap = GoMap.make) ∧
      (UpdateTopology (.ok hits) publisher).name = publisher.name := by
  rw [updateTopology_map]
  refine ⟨?_, ?_, ?_, ?_, ?_, rfl⟩
  · intro ip
    constructor
    · intro hne
      by_contra hno
      apply hne
      rw [foldl_set_of_absent]
      · rfl
      · intro top ht hip
        exact hno ⟨top, ht, hip⟩
    · rintro ⟨top, ht, rfl⟩
      exact foldl_set_key_of_mem GoMap.make hits top ht
  · intro ip name h
    rcases foldl_set_some GoMap.make hits ip name h with h1 | h1
    · simp [GoMap.make] at h1
    · exact h1
  · intro pre top post hsplit hpost
    rw [hsplit, List.foldl_append, List.foldl_cons]
    apply foldl_set_keeps _ post top.Ip top.Name _ hpost
    simp [GoMap.set]
  · intro ip habs
    rw [foldl_set_of_absent GoMap.make hits ip habs]
    rfl
  · intro he
    subst he
    rfl

theorem updateTopology_snapshot_witness :
    (UpdateTopology (.ok sampleHits) web1Stale).TopologyMap "10.0.0.5" = some "web1" ∧
      web1Stale.TopologyMap "10.0.0.7" = some "web1" ∧
      (UpdateTopology (.ok sampleHits) web1Stale).TopologyMap "10.0.0.7" = none ∧
      (UpdateTopology (.ok conflictingHits) web1Stale).TopologyMap "10.0.0.5" = some "b" :=
  ⟨(updateTopology_snapshot web1Stale sampleHits).2.2.1 []
      { Name := "web1", Ip := "10.0.0.5" } [{ Name := "db1", Ip := "10.0.0.9" }]
      rfl (by decide),
    by decide,
    (updateTopology_snapshot web1Stale sampleHits).2.2.2.1 "10.0.0.7" (by decide),
    (updateTopology_snapshot web1Stale conflictingHits).2.2.1 [{ Name := "a", Ip := "10.0.0.5" }]
      { Name := "b", Ip := "10.0.0.5" } [] rfl (by decide)⟩

/-- C6 (as stated) fails: `web1` holds a snapshot with two entries, the fetch
fails, and afterwards the map has no entry for `10.0.0.5`, so it is not the
map held before. -/
theorem updateTopology_error_counterexample :
    web1.TopologyMap "10.0.0.5" = some "web1" ∧
      (UpdateTopology (.error "connection refused") web1).TopologyMap "10.0.0.5" = none ∧
      (UpdateTopology (.error "connection refused") web1).TopologyMap ≠ web1.TopologyMap :=
  ⟨by decide, by decide, fun h => by
    have h5 := congrFun h "10.0.0.5"
    revert h5
    decide⟩

/-- C6 (amended): for every prior `TopologyMap`, when the directory fetch
performed by `UpdateTopology` fails, the `TopologyMap` after `UpdateTopology`
is the empty map (the previous snapshot is replaced, not retained); the name
of the agent is unchanged. -/
theorem updateTopology_error_empties (publisher : PublisherType) (err : String) :
    (UpdateTopology (.error err) publisher).TopologyMap = GoMap.make ∧
      (∀ ip, (UpdateTopology (.error err) publisher).TopologyMap ip = none) ∧
      (UpdateTopology (.error err) publisher).name = publisher.name :=
  ⟨rfl, fun _ => rfl, rfl⟩

/-! ## Properties of `PublishTopology` -/

theorem stringInSlice_iff (a : String) (list : List String) :
    stringInSlice a list = true ↔ a ∈ list := by
  simp [stringInSlice]

theorem esExists_eq_false_iff (docs : Directory) (id : String) :
    esExists docs id = false ↔ ∀ d ∈ docs, d.1 ≠ id := by
  simp [esExists]

theorem esExists_eq_true_iff (docs : Directory) (id : String) :
    esExists docs id = true ↔ ∃ d ∈ docs, d.1 = id := by
  simp [esExists]

theorem mem_esSearchName (docs : Directory) (name : String) (top : Topology) :
    top ∈ esSearchName docs name ↔ ∃ d ∈ docs, d.2.Name = name ∧ d.2 = top := by
  simp [esSearchName]

theorem deleteOldAddrs_docs (localAddrs : List String) (hits : List Topology)
    (docs : Directory) :
    (deleteOldAddrs noFaults localAddrs hits docs).1
      = docs.filter (survives localAddrs hits) := by
  induction hits generalizing docs with
  | nil =>
    have hall : ∀ d ∈ docs, survives localAddrs [] d = true := fun _ _ => rfl
    simp only [deleteOldAddrs]
    exact (List.filter_eq_self.mpr hall).symm
  | cons top rest ih =>
    unfold deleteOldAddrs
    by_cases hin : stringInSlice top.Ip localAddrs = true
    · simp only [hin, Bool.not_true, Bool.false_eq_true, if_false]
      rw [ih]
      apply List.filter_congr
      intro d _
      simp [survives, hin]
    · simp only [Bool.not_eq_true] at hin
      have hdel : noFaults.delete top.Ip = none := rfl
      simp only [hin, Bool.not_false, if_true, hdel]
      rw [ih, esDelete, List.filter_filter]
      apply List.filter_congr
      intro d _
      simp [survives, hin, Bool.and_comm]

theorem deleteOldAddrs_trace (faults : Faults) (localAddrs : List String)
    (hits : List Topology) (docs : Directory) :
    (deleteOldAddrs faults localAddrs hits docs).2
      = ((hits.filter (fun top => !stringInSlice top.Ip localAddrs)).map
          (fun top => StoreOp.delete top.Ip)) := by
  induction hits generalizing docs with
  | nil => simp [deleteOldAddrs]
  | cons top rest ih =>
    unfold deleteOldAddrs
    by_cases hin : stringInSlice top.Ip localAddrs = true
    · simp only [hin, Bool.not_true, Bool.false_eq_true, if_false]
      rw [ih]
      simp [hin]
    · simp only [Bool.not_eq_true] at hin
      simp only [hin, Bool.not_false, if_true]
      rw [ih]
      simp [hin]

theorem addNewAddrs_cons_present (faults : Faults) (name addr : String) (rest : List String)
    (docs : Directory) (hex : esExists docs addr = true) :
    addNewAddrs faults name (addr :: rest) docs
      = { addNewAddrs faults name rest docs with
          trace := StoreOp.exists addr :: (addNewAddrs faults name rest docs).trace } := by
  rw [addNewAddrs]
  cases faults.existsErr addr <;> simp [hex]

theorem addNewAddrs_cons_exists_error (faults : Faults) (name addr err : String)
    (rest : List String) (docs : Directory) (herr : faults.existsErr addr = some err) :
    addNewAddrs faults name (addr :: rest) docs
      = { addNewAddrs faults name rest docs with
          trace := StoreOp.exists addr :: (addNewAddrs faults name rest docs).trace } := by
  rw [addNewAddrs]
  simp [herr]

theorem addNewAddrs_cons_index_error (faults : Faults) (name addr err : String)
    (rest : List String) (docs : Directory) (hok : faults.existsErr addr = none)
    (hex : esExists docs addr = false) (herr : faults.index addr = some err) :
    addNewAddrs faults name (addr :: rest) docs
      = { err := some err, docs := docs,
          trace := [StoreOp.exists addr, StoreOp.index addr { Name := name, Ip := addr }] } := by
  rw [addNewAddrs]
  simp [hok, hex, herr]

theorem addNewAddrs_cons_index_ok (faults : Faults) (name addr : String)
    (rest : List String) (docs : Directory) (hok : faults.existsErr addr = none)
    (hex : esExists docs addr = false) (hidx : faults.index addr = none) :
    addNewAddrs faults name (addr :: rest) docs
      = { addNewAddrs faults name rest (docs ++ [(addr, { Name := name, Ip := addr })]) with
          trace := StoreOp.exists addr :: StoreOp.index addr { Name := name, Ip := addr } ::
            (addNewAddrs faults name rest
              (docs ++ [(addr, { Name := name, Ip := addr })])).trace } := by
  rw [addNewAddrs]
  simp [hok, hex, hidx, esIndex]

theorem addNewAddrs_err_none (faults : Faults) (name : String) (xs : List String)
    (docs : Directory) (h : ∀ x ∈ xs, faults.index x = none) :
    (addNewAddrs faults name xs docs).err = none := by
  induction xs generalizing docs with
  | nil => rfl
  | cons addr rest ih =>
    have hrest : ∀ x ∈ rest, faults.index x = none := fun x hx => h x (by simp [hx])
    cases hE : faults.existsErr addr with
    | some e =>
      rw [addNewAddrs_cons_exists_error faults name addr e _ docs hE]
      exact ih docs hrest
    | none =>
      cases hX : esExists docs addr with
      | true =>
        rw [addNewAddrs_cons_present faults name addr _ docs hX]
        exact ih docs hrest
      | false =>
        rw [addNewAddrs_cons_index_ok faults name addr _ docs hE hX (h addr (by simp))]
        exact ih _ hrest

theorem addNewAddrs_existsChecks (faults : Faults) (name : String) (xs : List String)
    (docs : Directory) (h : (addNewAddrs faults name xs docs).err = none) :
    existsChecks (addNewAddrs faults name xs docs).trace = xs := by
  induction xs generalizing docs with
  | nil => rfl
  | cons addr rest ih =>
    cases hE : faults.existsErr addr with
    | some e =>
      rw [addNewAddrs_cons_exists_error faults name addr e _ docs hE] at h ⊢
      simp only [existsChecks, List.filterMap_cons]
      exact congrArg _ (ih docs h)
    | none =>
      cases hX : esExists docs addr with
      | true =>
        rw [addNewAddrs_cons_present faults name addr _ docs hX] at h ⊢
        simp only [existsChecks, List.filterMap_cons]
        exact congrArg _ (ih docs h)
      | false =>
        cases hI : faults.index addr with
        | some e =>
          rw [addNewAddrs_cons_index_error faults name addr e _ docs hE hX hI] at h
          simp at h
        | none =>
          rw [addNewAddrs_cons_index_ok faults name addr _ docs hE hX hI] at h ⊢
          simp only [existsChecks, List.filterMap_cons]
          exact congrArg _ (ih _ h)

theorem addNewAddrs_mem (faults : Faults) (name : String) (xs : List String)
    (docs : Directory) (d : String × Topology)
    (h : d ∈ (addNewAddrs faults name xs docs).docs) :
    d ∈ docs ∨ (d.1 ∈ xs ∧ d.2 = { Name := name, Ip := d.1 } ∧ esExists docs d.1 = false) := by
  induction xs generalizing docs with
  | nil => exact Or.inl h
  | cons addr rest ih =>
    cases hE : faults.existsErr addr with
    | some e =>
      rw [addNewAddrs_cons_exists_error faults name addr e _ docs hE] at h
      rcases ih docs h with h1 | ⟨h1, h2, h3⟩
      · exact Or.inl h1
      · exact Or.inr ⟨by simp [h1], h2, h3⟩
    | none =>
      cases hX : esExists docs addr with
      | true =>
        rw [addNewAddrs_cons_present faults name addr _ docs hX] at h
        rcases ih docs h with h1 | ⟨h1, h2, h3⟩
        · exact Or.inl h1
        · exact Or.inr ⟨by simp [h1], h2, h3⟩
      | false =>
        cases hI : faults.index addr with
        | some e =>
          rw [addNewAddrs_cons_index_error faults name addr e _ docs hE hX hI] at h
          exact Or.inl h
        | none =>
          rw [addNewAddrs_cons_index_ok faults name addr _ docs hE hX hI] at h
          rcases ih _ h with h1 | ⟨h1, h2, h3⟩
          · rcases List.mem_append.mp h1 with h4 | h4
            · exact Or.inl h4
            · right
              have hd : d = (addr, { Name := name, Ip := addr }) := by simpa using h4
              subst hd
              exact ⟨by simp, rfl, hX⟩
          · right
            refine ⟨by simp [h1], h2, ?_⟩
            rw [esExists_eq_false_iff] at h3 ⊢
            intro d' hd'
            exact h3 d' (by simp [hd'])

theorem addNewAddrs_mono (faults : Faults) (name : String) (xs : List String)
    (docs : Directory) (d : String × Topology) (h : d ∈ docs) :
    d ∈ (addNewAddrs faults name xs docs).docs := by
  induction xs generalizing docs with
  | nil => exact h
  | cons addr rest ih =>
    cases hE : faults.existsErr addr with
    | some e =>
      rw [addNewAddrs_cons_exists_error faults name addr e _ docs hE]
      exact ih docs h
    | none =>
      cases hX : esExists docs addr with
      | true =>
        rw [addNewAddrs_cons_present faults name addr _ docs hX]
        exact ih docs h
      | false =>
        cases hI : faults.index addr with
        | some e =>
          rw [addNewAddrs_cons_index_error faults name addr e _ docs hE hX hI]
          exact h
        | none =>
          rw [addNewAddrs_cons_index_ok faults name addr _ docs hE hX hI]
          exact ih _ (by simp [h])

theorem addNewAddrs_all_present (faults : Faults) (name : String) (xs : List String)
    (docs : Directory) (h : ∀ a ∈ xs, esExists docs a = true) :
    addNewAddrs faults name xs docs
      = { err := none, docs := docs, trace := xs.map StoreOp.exists } := by
  induction xs with
  | nil => rfl
  | cons addr rest ih =>
    rw [addNewAddrs_cons_present faults name addr rest docs (h addr (by simp)),
      ih (fun a ha => h a (by simp [ha]))]
    rfl

theorem addNewAddrs_registers (name : String) (xs : List String) (docs : Directory) :
    ∀ a ∈ xs, esExists (addNewAddrs noFaults name xs docs).docs a = true := by
  induction xs generalizing docs with
  | nil => simp
  | cons addr rest ih =>
    intro a ha
    have hE : noFaults.existsErr addr = none := rfl
    have hI : noFaults.index addr = none := rfl
    cases hX : esExists docs addr with
    | true =>
      rw [addNewAddrs_cons_present noFaults name addr _ docs hX]
      rcases List.mem_cons.mp ha with h1 | h1
      · subst h1
        obtain ⟨d, hd, hk⟩ := (esExists_eq_true_iff docs a).mp hX
        exact (esExists_eq_true_iff _ a).mpr
          ⟨d, addNewAddrs_mono noFaults name rest docs d hd, hk⟩
      · exact ih docs a h1
    | false =>
      rw [addNewAddrs_cons_index_ok noFaults name addr _ docs hE hX hI]
      rcases List.mem_cons.mp ha with h1 | h1
      · subst h1
        exact (esExists_eq_true_iff _ a).mpr
          ⟨(a, { Name := name, Ip := a }),
            addNewAddrs_mono noFaults name rest _ _ (by simp), rfl⟩
      · exact ih _ a h1

theorem wellFormed_snoc (docs : Directory) (name addr : String)
    (hwf : docs.WellFormed) (hX : esExists docs addr = false) :
    Directory.WellFormed (docs ++ [(addr, { Name := name, Ip := addr })]) := by
  obtain ⟨hnd, hid⟩ := hwf
  rw [esExists_eq_false_iff] at hX
  constructor
  · rw [List.map_append, List.nodup_append]
    refine ⟨hnd, by simp, ?_⟩
    intro k hk1 hk2
    simp at hk2
    subst hk2
    obtain ⟨d, hd, hdk⟩ := List.mem_map.mp hk1
    exact hX d hd hdk
  · intro d hd
    rcases List.mem_append.mp hd with h1 | h1
    · exact hid d h1
    · have : d = (addr, { Name := name, Ip := addr }) := by simpa using h1
      subst this
      rfl

theorem wellFormed_filter (docs : Directory) (keep : String × Topology → Bool)
    (hwf : docs.WellFormed) : Directory.WellFormed (docs.filter keep) :=
  ⟨hwf.1.sublist ((List.filter_sublist docs).map Prod.fst),
    fun d hd => hwf.2 d (List.mem_filter.mp hd).1⟩

theorem addNewAddrs_wellFormed (faults : Faults) (name : String) (xs : List String)
    (docs : Directory) (hwf : docs.WellFormed) :
    (addNewAddrs faults name xs docs).docs.WellFormed := by
  induction xs generalizing docs with
  | nil => exact hwf
  | cons addr rest ih =>
    cases hE : faults.existsErr addr with
    | some e =>
      rw [addNewAddrs_cons_exists_error faults name addr e _ docs hE]
      exact ih docs hwf
    | none =>
      cases hX : esExists docs addr with
      | true =>
        rw [addNewAddrs_cons_present faults name addr _ docs hX]
        exact ih docs hwf
      | false =>
        cases hI : faults.index addr with
        | some e =>
          rw [addNewAddrs_cons_index_error faults name addr e _ docs hE hX hI]
          exact hwf
        | none =>
          rw [addNewAddrs_cons_index_ok faults name addr _ docs hE hX hI]
          exact ih _ (wellFormed_snoc docs name addr hwf hX)

theorem deleteOldAddrs_nothing (faults : Faults) (localAddrs : List String)
    (hits : List Topology) (docs : Directory)
    (h : ∀ top ∈ hits, stringInSlice top.Ip localAddrs = true) :
    deleteOldAddrs faults localAddrs hits docs = (docs, []) := by
  induction hits with
  | nil => rfl
  | cons top rest ih =>
    unfold deleteOldAddrs
    simp only [h top (by simp), Bool.not_true, Bool.false_eq_true, if_false]
    exact ih (fun t ht => h t (by simp [ht]))

theorem deletePhase_noFaults (name : String) (localAddrs : List String) (docs : Directory) :
    deletePhase noFaults name localAddrs docs
      = (docs.filter (survives localAddrs (esSearchName docs name)),
          StoreOp.search name ::
            ((esSearchName docs name).filter
              (fun top => !stringInSlice top.Ip localAddrs)).map
              (fun top => StoreOp.delete top.Ip)) := by
  have hs : noFaults.search = none := rfl
  simp only [deletePhase, hs]
  rw [deleteOldAddrs_docs, deleteOldAddrs_trace]

theorem publishTopology_of_ok (faults : Faults) (LocalAddrs : Except String (List String))
    (publisher : PublisherType) (docs : Directory) (params : List String)
    (hne : params ≠ [])
    (hok : (addNewAddrs faults publisher.name params
      (deletePhase faults publisher.name params docs).1).err = none) :
    PublishTopology faults LocalAddrs publisher docs params
      = { err := none, publisher := { publisher with TopologyMap := GoMap.make },
          docs := (addNewAddrs faults publisher.name params
            (deletePhase faults publisher.name params docs).1).docs,
          trace := (deletePhase faults publisher.name params docs).2 ++
            (addNewAddrs faults publisher.name params
              (deletePhase faults publisher.name params docs).1).trace } := by
  have hlen : params.length ≠ 0 := fun h => hne (List.length_eq_zero.mp h)
  simp only [PublishTopology, hlen, if_false, hok]

theorem publishTopology_noop (LocalAddrs : Except String (List String))
    (publisher : PublisherType) (docs : Directory) (addrs : List String) (hne : addrs ≠ [])
    (hreg : ∀ a ∈ addrs, esExists docs a = true)
    (hmine : ∀ d ∈ docs, d.2.Name = publisher.name → d.2.Ip ∈ addrs) :
    PublishTopology noFaults LocalAddrs publisher docs addrs
      = { err := none, publisher := { publisher with TopologyMap := GoMap.make },
          docs := docs,
          trace := StoreOp.search publisher.name :: addrs.map StoreOp.exists } := by
  have hhits : ∀ top ∈ esSearchName docs publisher.name,
      stringInSlice top.Ip addrs = true := by
    intro top ht
    obtain ⟨d, hd, hn, rfl⟩ := (mem_esSearchName docs publisher.name top).mp ht
    exact (stringInSlice_iff _ _).mpr (hmine d hd hn)
  have hs : noFaults.search = none := rfl
  have hdel : deletePhase noFaults publisher.name addrs docs
      = (docs, [StoreOp.search publisher.name]) := by
    simp only [deletePhase, hs]
    rw [deleteOldAddrs_nothing noFaults addrs _ docs hhits]
  have hadd := addNewAddrs_all_present noFaults publisher.name addrs docs hreg
  have hok : (addNewAddrs noFaults publisher.name addrs
      (deletePhase noFaults publisher.name addrs docs).1).err = none := by
    rw [hdel, hadd]
  rw [publishTopology_of_ok noFaults LocalAddrs publisher docs addrs hne hok, hdel, hadd]
  rfl

theorem publishTopology_noFaults (LocalAddrs : Except String (List String))
    (publisher : PublisherType) (docs : Directory) (addrs : List String) (hne : addrs ≠ []) :
    PublishTopology noFaults LocalAddrs publisher docs addrs
      = { err := none, publisher := { publisher with TopologyMap := GoMap.make },
          docs := (addNewAddrs noFaults publisher.name addrs
            (docs.filter (survives addrs (esSearchName docs publisher.name)))).docs,
          trace := (StoreOp.search publisher.name ::
              ((esSearchName docs publisher.name).filter
                (fun top => !stringInSlice top.Ip addrs)).map
                (fun top => StoreOp.delete top.Ip)) ++
            (addNewAddrs noFaults publisher.name addrs
              (docs.filter (survives addrs (esSearchName docs publisher.name)))).trace } := by
  have hok := addNewAddrs_err_none noFaults publisher.name addrs
    (deletePhase noFaults publisher.name addrs docs).1 (fun _ _ => rfl)
  rw [publishTopology_of_ok noFaults LocalAddrs publisher docs addrs hne hok,
    deletePhase_noFaults]

theorem survives_own_entry (docs : Directory) (name : String) (addrs : List String)
    (hwf : docs.WellFormed) (d : String × Topology) (hd : d ∈ docs)
    (hs : survives addrs (esSearchName docs name) d = true) (hn : d.2.Name = name) :
    d.2.Ip ∈ addrs := by
  have hmem : d.2 ∈ esSearchName docs name :=
    (mem_esSearchName docs name d.2).mpr ⟨d, hd, hn, rfl⟩
  have h := List.all_eq_true.mp hs d.2 hmem
  simp only [Bool.or_eq_true, bne_iff_ne, ne_eq] at h
  rcases h with h | h
  · exact (stringInSlice_iff _ _).mp h
  · exact absurd (hwf.2 d hd).symm h

theorem survives_of_kept (docs : Directory) (name : String) (addrs : List String)
    (hwf : docs.WellFormed) (d : String × Topology) (hd : d ∈ docs)
    (hkeep : ¬ (d.2.Name = name ∧ d.2.Ip ∉ addrs)) :
    survives addrs (esSearchName docs name) d = true := by
  apply List.all_eq_true.mpr
  intro top ht
  simp only [Bool.or_eq_true, bne_iff_ne, ne_eq]
  by_cases hin : stringInSlice top.Ip addrs = true
  · exact Or.inl hin
  · right
    intro hk
    obtain ⟨d', hd', hn', rfl⟩ := (mem_esSearchName docs name top).mp ht
    have hkey : d.1 = d'.1 := by rw [hk, hwf.2 d' hd']
    have heq : d = d' := List.inj_on_of_nodup_map hwf.1 hd hd' hkey
    subst heq
    exact hkeep ⟨hn', fun hmem => hin ((stringInSlice_iff _ _).mpr hmem)⟩

/-- C7: over a directory on which every store operation succeeds, for every
agent, every well-formed initial directory and every non-empty address list,
the second of two consecutive calls `PublishTopology(addrs)` performs no
store write (its trace is the search followed by one exists-check per
address), and leaves the directory as the first call left it; both calls
return nil. -/
theorem publishTopology_idempotent (LocalAddrs : Except String (List String))
    (publisher : PublisherType) (docs : Directory) (addrs : List String)
    (hne : addrs ≠ []) (hwf : docs.WellFormed) :
    (PublishTopology noFaults LocalAddrs publisher docs addrs).err = none ∧
      (PublishTopology noFaults LocalAddrs
        (PublishTopology noFaults LocalAddrs publisher docs addrs).publisher
        (PublishTopology noFaults LocalAddrs publisher docs addrs).docs addrs).err = none ∧
      (∀ op ∈ (PublishTopology noFaults LocalAddrs
        (PublishTopology noFaults LocalAddrs publisher docs addrs).publisher
        (PublishTopology noFaults LocalAddrs publisher docs addrs).docs addrs).trace,
        op.isWrite = false) ∧
      (PublishTopology noFaults LocalAddrs
        (PublishTopology noFaults LocalAddrs publisher docs addrs).publisher
        (PublishTopology noFaults LocalAddrs publisher docs addrs).docs addrs).trace
        = StoreOp.search publisher.name :: addrs.map StoreOp.exists ∧
      (PublishTopology noFaults LocalAddrs
        (PublishTopology noFaults LocalAddrs publisher docs addrs).publisher
        (PublishTopology noFaults LocalAddrs publisher docs addrs).docs addrs).docs
        = (PublishTopology noFaults LocalAddrs publisher docs addrs).docs := by
  rw [publishTopology_noFaults LocalAddrs publisher docs addrs hne]
  simp only
  have hreg := addNewAddrs_registers publisher.name addrs
    (docs.filter (survives addrs (esSearchName docs publisher.name)))
  have hmine : ∀ d ∈ (addNewAddrs noFaults publisher.name addrs
      (docs.filter (survives addrs (esSearchName docs publisher.name)))).docs,
      d.2.Name = publisher.name → d.2.Ip ∈ addrs := by
    intro d hd hn
    rcases addNewAddrs_mem noFaults publisher.name addrs _ d hd with h1 | ⟨h1, h2, _⟩
    · obtain ⟨hdocs, hs⟩ := List.mem_filter.mp h1
      exact survives_own_entry docs publisher.name addrs hwf d hdocs hs hn
    · rw [h2]
      exact h1
  have hsecond := publishTopology_noop LocalAddrs
    { publisher with TopologyMap := GoMap.make } _ addrs hne hreg hmine
  rw [hsecond]
  refine ⟨trivial, rfl, ?_, rfl, rfl⟩
  intro op hop
  simp only [List.mem_cons, List.mem_map] at hop
  rcases hop with rfl | ⟨a, _, rfl⟩ <;> rfl

theorem publishTopology_idempotent_witness :
    (["10.0.0.5", "8.8.8.8"] : List String) ≠ [] ∧ sampleDirectory.WellFormed ∧
      (∀ op ∈ (PublishTopology noFaults (.ok [])
        (PublishTopology noFaults (.ok []) web1 sampleDirectory ["10.0.0.5", "8.8.8.8"]).publisher
        (PublishTopology noFaults (.ok []) web1 sampleDirectory ["10.0.0.5", "8.8.8.8"]).docs
        ["10.0.0.5", "8.8.8.8"]).trace, op.isWrite = false) ∧
      (PublishTopology noFaults (.ok [])
        (PublishTopology noFaults (.ok []) web1 sampleDirectory ["10.0.0.5", "8.8.8.8"]).publisher
        (PublishTopology noFaults (.ok []) web1 sampleDirectory ["10.0.0.5", "8.8.8.8"]).docs
        ["10.0.0.5", "8.8.8.8"]).docs
        = (PublishTopology noFaults (.ok []) web1 sampleDirectory
            ["10.0.0.5", "8.8.8.8"]).docs :=
  ⟨by decide, by decide,
    (publishTopology_idempotent (.ok []) web1 sampleDirectory ["10.0.0.5", "8.8.8.8"]
      (by decide) (by decide)).2.2.1,
    (publishTopology_idempotent (.ok []) web1 sampleDirectory ["10.0.0.5", "8.8.8.8"]
      (by decide) (by decide)).2.2.2.2⟩

theorem addNewAddrs_trace_ops (faults : Faults) (name : String) (xs : List String)
    (docs : Directory) :
    ∀ op ∈ (addNewAddrs faults name xs docs).trace,
      ∃ a ∈ xs, op = StoreOp.exists a ∨ op = StoreOp.index a { Name := name, Ip := a } := by
  induction xs generalizing docs with
  | nil => simp [addNewAddrs]
  | cons addr rest ih =>
    intro op hop
    have hrest : ∀ docs1, op ∈ (addNewAddrs faults name rest docs1).trace →
        ∃ a ∈ addr :: rest,
          op = StoreOp.exists a ∨ op = StoreOp.index a { Name := name, Ip := a } := by
      intro docs1 h
      obtain ⟨a, ha, hop1⟩ := ih docs1 op h
      exact ⟨a, by simp [ha], hop1⟩
    cases hE : faults.existsErr addr with
    | some e =>
      rw [addNewAddrs_cons_exists_error faults name addr e _ docs hE] at hop
      rcases List.mem_cons.mp hop with h1 | h1
      · exact ⟨addr, by simp, Or.inl h1⟩
      · exact hrest docs h1
    | none =>
      cases hX : esExists docs addr with
      | true =>
        rw [addNewAddrs_cons_present faults name addr _ docs hX] at hop
        rcases List.mem_cons.mp hop with h1 | h1
        · exact ⟨addr, by simp, Or.inl h1⟩
        · exact hrest docs h1
      | false =>
        cases hI : faults.index addr with
        | some e =>
          rw [addNewAddrs_cons_index_error faults name addr e _ docs hE hX hI] at hop
          simp only [List.mem_cons, List.mem_singleton, List.not_mem_nil, or_false] at hop
          exact ⟨addr, by simp, hop⟩
        | none =>
          rw [addNewAddrs_cons_index_ok faults name addr _ docs hE hX hI] at hop
          rcases List.mem_cons.mp hop with h1 | h1
          · exact ⟨addr, by simp, Or.inl h1⟩
          · rcases List.mem_cons.mp h1 with h2 | h2
            · exact ⟨addr, by simp, Or.inr h2⟩
            · exact hrest _ h2

theorem mem_existsChecks (trace : List StoreOp) (id : String) :
    id ∈ existsChecks trace ↔ StoreOp.exists id ∈ trace := by
  induction trace with
  | nil => simp [existsChecks]
  | cons op rest ih =>
    unfold existsChecks at ih ⊢
    cases op <;> simp [List.filterMap_cons, ih]

theorem mem_indexedIds (trace : List StoreOp) (id : String) :
    id ∈ indexedIds trace ↔ ∃ doc, StoreOp.index id doc ∈ trace := by
  induction trace with
  | nil => simp [indexedIds]
  | cons op rest ih =>
    unfold indexedIds at ih ⊢
    cases op with
    | index i doc0 =>
      simp only [List.filterMap_cons, List.mem_cons, ih, StoreOp.index.injEq]
      constructor
      · rintro (h | ⟨doc, h⟩)
        · exact ⟨doc0, Or.inl ⟨h, rfl⟩⟩
        · exact ⟨doc, Or.inr h⟩
      · rintro ⟨doc, ⟨h, _⟩ | h⟩
        · exact Or.inl h
        · exact Or.inr ⟨doc, h⟩
    | search n => simp [List.filterMap_cons, ih]
    | delete i => simp [List.filterMap_cons, ih]
    | «exists» i => simp [List.filterMap_cons, ih]

/-- C8: over a directory on which every store operation succeeds, for every
agent, well-formed initial directory and non-empty address list,
`PublishTopology(addrs)` issues a delete for exactly the ips of the entries
named after this agent whose ip is not in `addrs`; those entries are gone
afterwards, every other entry is still there, and the entries named after
another agent are the same after the call as before it (none deleted, none
overwritten, none created); the directory stays a map keyed by ip. -/
theorem publishTopology_deletes_exactly (LocalAddrs : Except String (List String))
    (publisher : PublisherType) (docs : Directory) (addrs : List String)
    (hne : addrs ≠ []) (hwf : docs.WellFormed) :
    (∀ id, StoreOp.delete id ∈ (PublishTopology noFaults LocalAddrs publisher docs addrs).trace ↔
        ∃ d ∈ docs, d.2.Name = publisher.name ∧ d.2.Ip = id ∧ id ∉ addrs) ∧
      (∀ d ∈ docs, d.2.Name = publisher.name → d.2.Ip ∉ addrs →
        d ∉ (PublishTopology noFaults LocalAddrs publisher docs addrs).docs ∧
        esExists (PublishTopology noFaults LocalAddrs publisher docs addrs).docs d.1 = false) ∧
      (∀ d ∈ docs, ¬ (d.2.Name = publisher.name ∧ d.2.Ip ∉ addrs) →
        d ∈ (PublishTopology noFaults LocalAddrs publisher docs addrs).docs) ∧
      (∀ d : String × Topology, d.2.Name ≠ publisher.name →
        (d ∈ (PublishTopology noFaults LocalAddrs publisher docs addrs).docs ↔ d ∈ docs)) ∧
      (PublishTopology noFaults LocalAddrs publisher docs addrs).docs.WellFormed := by
  rw [publishTopology_noFaults LocalAddrs publisher docs addrs hne]
  simp only
  have hgone : ∀ d ∈ docs, d.2.Name = publisher.name → d.2.Ip ∉ addrs →
      esExists (addNewAddrs noFaults publisher.name addrs
        (docs.filter (survives addrs (esSearchName docs publisher.name)))).docs d.1 = false := by
    intro d hd hn hout
    rw [esExists_eq_false_iff]
    intro d' hd' hk
    rcases addNewAddrs_mem noFaults publisher.name addrs _ d' hd' with h1 | ⟨h1, _, _⟩
    · obtain ⟨_, hs⟩ := List.mem_filter.mp h1
      have hmem : d.2 ∈ esSearchName docs publisher.name :=
        (mem_esSearchName docs publisher.name d.2).mpr ⟨d, hd, hn, rfl⟩
      have h := List.all_eq_true.mp hs d.2 hmem
      simp only [Bool.or_eq_true, bne_iff_ne, ne_eq] at h
      rcases h with h | h
      · exact hout ((stringInSlice_iff _ _).mp h)
      · exact h (by rw [hk, hwf.2 d hd])
    · rw [hk, ← hwf.2 d hd] at h1
      exact hout h1
  refine ⟨?_, ?_, ?_, ?_, ?_⟩
  · intro id
    constructor
    · intro h
      rcases List.mem_append.mp h with h1 | h1
      · simp only [List.mem_cons, List.mem_map, List.mem_filter, Bool.not_eq_true',
          reduceCtorEq, false_or] at h1
        obtain ⟨top, ⟨ht, hout⟩, hid⟩ := h1
        obtain ⟨d, hd, hn, rfl⟩ := (mem_esSearchName docs publisher.name top).mp ht
        have hid' : d.2.Ip = id := by injection hid
        refine ⟨d, hd, hn, hid', ?_⟩
        intro hmem
        rw [← hid', ← stringInSlice_iff, hout] at hmem
        exact Bool.noConfusion hmem
      · obtain ⟨a, _, h2 | h2⟩ := addNewAddrs_trace_ops noFaults publisher.name addrs _ _ h1
        · exact StoreOp.noConfusion h2
        · exact StoreOp.noConfusion h2
    · rintro ⟨d, hd, hn, rfl, hout⟩
      apply List.mem_append_left
      apply List.mem_cons_of_mem
      refine List.mem_map.mpr ⟨d.2, List.mem_filter.mpr ⟨?_, ?_⟩, rfl⟩
      · exact (mem_esSearchName docs publisher.name d.2).mpr ⟨d, hd, hn, rfl⟩
      · cases hs : stringInSlice d.2.Ip addrs with
        | true => exact absurd ((stringInSlice_iff _ _).mp hs) hout
        | false => rfl
  · intro d hd hn hout
    have hg := hgone d hd hn hout
    refine ⟨?_, hg⟩
    intro hmem
    exact (esExists_eq_false_iff _ _).mp hg d hmem rfl
  · intro d hd hkeep
    apply addNewAddrs_mono
    exact List.mem_filter.mpr
      ⟨hd, survives_of_kept docs publisher.name addrs hwf d hd hkeep⟩
  · intro d hn
    constructor
    · intro hmem
      rcases addNewAddrs_mem noFaults publisher.name addrs _ d hmem with h1 | ⟨_, h2, _⟩
      · exact (List.mem_filter.mp h1).1
      · rw [h2] at hn
        exact absurd rfl hn
    · intro hd
      apply addNewAddrs_mono
      exact List.mem_filter.mpr
        ⟨hd, survives_of_kept docs publisher.name addrs hwf d hd (fun h => hn h.1)⟩
  · exact addNewAddrs_wellFormed noFaults publisher.name addrs _
      (wellFormed_filter docs _ hwf)

theorem publishTopology_deletes_exactly_witness :
    (["10.0.0.5", "8.8.8.8"] : List String) ≠ [] ∧ sampleDirectory.WellFormed ∧
      (("10.0.0.7", ({ Name := "web1", Ip := "10.0.0.7" } : Topology)) ∉
          (PublishTopology noFaults (.ok []) web1 sampleDirectory ["10.0.0.5", "8.8.8.8"]).docs ∧
        esExists (PublishTopology noFaults (.ok []) web1 sampleDirectory
          ["10.0.0.5", "8.8.8.8"]).docs "10.0.0.7" = false) ∧
      (("10.0.0.9", ({ Name := "db1", Ip := "10.0.0.9" } : Topology)) ∈
          (PublishTopology noFaults (.ok []) web1 sampleDirectory ["10.0.0.5", "8.8.8.8"]).docs) :=
  ⟨by decide, by decide,
    (publishTopology_deletes_exactly (.ok []) web1 sampleDirectory ["10.0.0.5", "8.8.8.8"]
      (by decide) (by decide)).2.1
      ("10.0.0.7", { Name := "web1", Ip := "10.0.0.7" }) (by decide) (by decide) (by decide),
    (publishTopology_deletes_exactly (.ok []) web1 sampleDirectory ["10.0.0.5", "8.8.8.8"]
      (by decide) (by decide)).2.2.1
      ("10.0.0.9", { Name := "db1", Ip := "10.0.0.9" }) (by decide) (by decide)⟩

theorem deletePhase_trace_ops (faults : Faults) (name : String) (localAddrs : List String)
    (docs : Directory) :
    ∀ op ∈ (deletePhase faults name localAddrs docs).2,
      op = StoreOp.search name ∨ ∃ id, op = StoreOp.delete id := by
  unfold deletePhase
  cases faults.search with
  | none =>
    intro op hop
    simp only [deleteOldAddrs_trace, List.mem_cons, List.mem_map] at hop
    rcases hop with h | ⟨top, _, h⟩
    · exact Or.inl h
    · exact Or.inr ⟨top.Ip, h.symm⟩
  | some e =>
    intro op hop
    simp only [List.mem_singleton] at hop
    exact Or.inl hop

theorem existsChecks_deletePhase (faults : Faults) (name : String) (localAddrs : List String)
    (docs : Directory) : existsChecks (deletePhase faults name localAddrs docs).2 = [] := by
  rw [List.eq_nil_iff_forall_not_mem]
  intro id hid
  rcases deletePhase_trace_ops faults name localAddrs docs _
    ((mem_existsChecks _ id).mp hid) with h | ⟨_, h⟩
  · exact StoreOp.noConfusion h
  · exact StoreOp.noConfusion h

/-- C10 (as stated) fails: with an empty directory and the index call failing
for `10.0.0.5`, `PublishTopology("10.0.0.5", "10.0.0.7")` returns the error
right after that call; the remaining address `10.0.0.7`, absent from the
directory, gets neither an existence check nor an insert. -/
theorem publishTopology_index_error_counterexample :
    indexFaultAt5.index "10.0.0.5" = some "connection refused" ∧
      (PublishTopology indexFaultAt5 (.ok []) web1 [] ["10.0.0.5", "10.0.0.7"]).err
        = some "connection refused" ∧
      (PublishTopology indexFaultAt5 (.ok []) web1 [] ["10.0.0.5", "10.0.0.7"]).trace
        = [StoreOp.search "web1", StoreOp.exists "10.0.0.5",
            StoreOp.index "10.0.0.5" { Name := "web1", Ip := "10.0.0.5" }] ∧
      StoreOp.exists "10.0.0.7" ∉
        (PublishTopology indexFaultAt5 (.ok []) web1 [] ["10.0.0.5", "10.0.0.7"]).trace ∧
      StoreOp.index "10.0.0.7" { Name := "web1", Ip := "10.0.0.7" } ∉
        (PublishTopology indexFaultAt5 (.ok []) web1 [] ["10.0.0.5", "10.0.0.7"]).trace ∧
      esExists (PublishTopology indexFaultAt5 (.ok []) web1 []
        ["10.0.0.5", "10.0.0.7"]).docs "10.0.0.7" = false := by
  decide

theorem publishTopology_fields (faults : Faults) (LocalAddrs : Except String (List String))
    (publisher : PublisherType) (docs : Directory) (params addrs : List String)
    (hL : (if params.length = 0 then LocalAddrs else .ok params) = .ok addrs) :
    (PublishTopology faults LocalAddrs publisher docs params).err
        = (addNewAddrs faults publisher.name addrs
            (deletePhase faults publisher.name addrs docs).1).err ∧
      (PublishTopology faults LocalAddrs publisher docs params).trace
        = (deletePhase faults publisher.name addrs docs).2 ++
          (addNewAddrs faults publisher.name addrs
            (deletePhase faults publisher.name addrs docs).1).trace ∧
      ((addNewAddrs faults publisher.name addrs
          (deletePhase faults publisher.name addrs docs).1).err ≠ none →
        (PublishTopology faults LocalAddrs publisher docs params).publisher = publisher) := by
  unfold PublishTopology
  rw [hL]
  cases hE : (addNewAddrs faults publisher.name addrs
      (deletePhase faults publisher.name addrs docs).1).err with
  | none => simp [hE]
  | some e => simp [hE]

theorem addNewAddrs_failed_index (faults : Faults) (name : String) (xs : List String)
    (docs : Directory) (a : String) (doc : Topology) (err : String)
    (hmem : StoreOp.index a doc ∈ (addNewAddrs faults name xs docs).trace)
    (hf : faults.index a = some err) :
    ∃ pre rest, xs = pre ++ a :: rest ∧ (addNewAddrs faults name pre docs).err = none ∧
      addNewAddrs faults name xs docs
        = { err := some err, docs := (addNewAddrs faults name pre docs).docs,
            trace := (addNewAddrs faults name pre docs).trace ++
              [StoreOp.exists a, StoreOp.index a doc] } := by
  induction xs generalizing docs with
  | nil => simp [addNewAddrs] at hmem
  | cons addr tail ih =>
    cases hE : faults.existsErr addr with
    | some e =>
      rw [addNewAddrs_cons_exists_error faults name addr e _ docs hE] at hmem ⊢
      simp only [List.mem_cons, reduceCtorEq, false_or] at hmem
      obtain ⟨pre, rest, hxs, hok, hrun⟩ := ih docs hmem
      refine ⟨addr :: pre, rest, by rw [hxs]; rfl, ?_, ?_⟩
      · rw [addNewAddrs_cons_exists_error faults name addr e _ docs hE]
        exact hok
      · rw [addNewAddrs_cons_exists_error faults name addr e _ docs hE, hrun]
        rfl
    | none =>
      cases hX : esExists docs addr with
      | true =>
        rw [addNewAddrs_cons_present faults name addr _ docs hX] at hmem ⊢
        simp only [List.mem_cons, reduceCtorEq, false_or] at hmem
        obtain ⟨pre, rest, hxs, hok, hrun⟩ := ih docs hmem
        refine ⟨addr :: pre, rest, by rw [hxs]; rfl, ?_, ?_⟩
        · rw [addNewAddrs_cons_present faults name addr _ docs hX]
          exact hok
        · rw [addNewAddrs_cons_present faults name addr _ docs hX, hrun]
          rfl
      | false =>
        cases hI : faults.index addr with
        | some e =>
          rw [addNewAddrs_cons_index_error faults name addr e _ docs hE hX hI] at hmem ⊢
          simp only [List.mem_cons, reduceCtorEq, false_or, List.mem_singleton,
            List.not_mem_nil, or_false, StoreOp.index.injEq] at hmem
          obtain ⟨ha, hdoc⟩ := hmem
          subst ha
          subst hdoc
          have he : e = err := Option.some.inj (hI.symm.trans hf)
          subst he
          exact ⟨[], tail, rfl, rfl, rfl⟩
        | none =>
          rw [addNewAddrs_cons_index_ok faults name addr _ docs hE hX hI] at hmem ⊢
          simp only [List.mem_cons, reduceCtorEq, false_or, StoreOp.index.injEq] at hmem
          rcases hmem with ⟨ha, _⟩ | hmem
          · rw [ha, hI] at hf
            exact Option.noConfusion hf
          · obtain ⟨pre, rest, hxs, hok, hrun⟩ := ih _ hmem
            refine ⟨addr :: pre, rest, by rw [hxs]; rfl, ?_, ?_⟩
            · rw [addNewAddrs_cons_index_ok faults name addr _ docs hE hX hI]
              exact hok
            · rw [addNewAddrs_cons_index_ok faults name addr _ docs hE hX hI, hrun]
              rfl

/-- C10 (amended): over a directory store whose operations may fail, for
every address list, when the index call made for an address `a` fails,
`PublishTopology` returns that error at once: the list splits as
`pre ++ a :: rest`, the existence checks performed are exactly those of `pre`
and `a`, every index call is for an address of `pre` or for `a`, the failing
index call is the last store call, so the addresses after `a` are not
processed, and the publisher (its `TopologyMap` included) is left as it was. -/
theorem publishTopology_index_error_stops (faults : Faults)
    (LocalAddrs : Except String (List String)) (publisher : PublisherType)
    (docs : Directory) (params addrs : List String) (a : String) (doc : Topology)
    (err : String)
    (hL : (if params.length = 0 then LocalAddrs else .ok params) = .ok addrs)
    (hcall : StoreOp.index a doc ∈
      (PublishTopology faults LocalAddrs publisher docs params).trace)
    (hfail : faults.index a = some err) :
    (PublishTopology faults LocalAddrs publisher docs params).err = some err ∧
      (PublishTopology faults LocalAddrs publisher docs params).publisher = publisher ∧
      ∃ pre rest, addrs = pre ++ a :: rest ∧
        existsChecks (PublishTopology faults LocalAddrs publisher docs params).trace
          = pre ++ [a] ∧
        (∀ id ∈ indexedIds (PublishTopology faults LocalAddrs publisher docs params).trace,
          id ∈ pre ++ [a]) ∧
        (PublishTopology faults LocalAddrs publisher docs params).trace.getLast?
          = some (StoreOp.index a doc) := by
  obtain ⟨herr, htrace, hpub⟩ :=
    publishTopology_fields faults LocalAddrs publisher docs params addrs hL
  rw [htrace] at hcall
  have hadd : StoreOp.index a doc ∈ (addNewAddrs faults publisher.name addrs
      (deletePhase faults publisher.name addrs docs).1).trace := by
    rcases List.mem_append.mp hcall with h | h
    · rcases deletePhase_trace_ops faults _ _ docs _ h with h3 | ⟨_, h3⟩
      · exact StoreOp.noConfusion h3
      · exact StoreOp.noConfusion h3
    · exact h
  obtain ⟨pre, rest, hxs, hok, hrun⟩ :=
    addNewAddrs_failed_index faults publisher.name addrs _ a doc err hadd hfail
  rw [hrun] at herr htrace hpub
  refine ⟨herr, hpub (by simp), pre, rest, hxs, ?_, ?_, ?_⟩
  · rw [htrace]
    have h1 := existsChecks_deletePhase faults publisher.name addrs docs
    have h2 := addNewAddrs_existsChecks faults publisher.name pre _ hok
    unfold existsChecks at h1 h2 ⊢
    simp only [List.filterMap_append, h1, h2, List.nil_append]
    rfl
  · intro id hid
    rw [htrace] at hid
    obtain ⟨doc1, hdoc⟩ := (mem_indexedIds _ id).mp hid
    rcases List.mem_append.mp hdoc with h | h
    · rcases deletePhase_trace_ops faults _ _ docs _ h with h3 | ⟨_, h3⟩
      · exact StoreOp.noConfusion h3
      · exact StoreOp.noConfusion h3
    · rcases List.mem_append.mp h with h | h
      · obtain ⟨x, hx, h3 | h3⟩ := addNewAddrs_trace_ops faults publisher.name pre _ _ h
        · exact StoreOp.noConfusion h3
        · have : id = x := by injection h3
          simp [this, hx]
      · simp only [List.mem_cons, List.mem_singleton, List.not_mem_nil, or_false,
          reduceCtorEq, false_or, StoreOp.index.injEq] at h
        simp [h.1]
  · rw [htrace, ← List.append_assoc]
    simp

theorem publishTopology_index_error_stops_witness :
    StoreOp.index "10.0.0.5" { Name := "web1", Ip := "10.0.0.5" } ∈
        (PublishTopology indexFaultAt5 (.ok []) web1 db1Directory
          ["10.0.0.9", "10.0.0.5", "8.8.8.8"]).trace ∧
      indexFaultAt5.index "10.0.0.5" = some "connection refused" ∧
      (PublishTopology indexFaultAt5 (.ok []) web1 db1Directory
          ["10.0.0.9", "10.0.0.5", "8.8.8.8"]).err = some "connection refused" ∧
      (PublishTopology indexFaultAt5 (.ok []) web1 db1Directory
          ["10.0.0.9", "10.0.0.5", "8.8.8.8"]).publisher = web1 ∧
      ∃ pre rest, ["10.0.0.9", "10.0.0.5", "8.8.8.8"] = pre ++ "10.0.0.5" :: rest ∧
        existsChecks (PublishTopology indexFaultAt5 (.ok []) web1 db1Directory
          ["10.0.0.9", "10.0.0.5", "8.8.8.8"]).trace = pre ++ ["10.0.0.5"] ∧
        (∀ id ∈ indexedIds (PublishTopology indexFaultAt5 (.ok []) web1 db1Directory
            ["10.0.0.9", "10.0.0.5", "8.8.8.8"]).trace, id ∈ pre ++ ["10.0.0.5"]) ∧
        (PublishTopology indexFaultAt5 (.ok []) web1 db1Directory
          ["10.0.0.9", "10.0.0.5", "8.8.8.8"]).trace.getLast?
          = some (StoreOp.index "10.0.0.5" { Name := "web1", Ip := "10.0.0.5" }) :=
  ⟨by decide, rfl,
    publishTopology_index_error_stops indexFaultAt5 (.ok []) web1 db1Directory
      ["10.0.0.9", "10.0.0.5", "8.8.8.8"] ["10.0.0.9", "10.0.0.5", "8.8.8.8"] "10.0.0.5"
      { Name := "web1", Ip := "10.0.0.5" } "connection refused" rfl (by decide) rfl⟩

end Packetbeat
